import Mathlib

/-!
Verification of the ChronoFund fundamental-data engine against its
natural-language specification.

The development shallowly embeds the point-in-time (PIT) core of the
engine:

* calendar dates are modelled as integers (days since an arbitrary
  epoch) and wall-clock datetimes as integers (seconds since the same
  epoch); Python `datetime.date` / `datetime.datetime` comparison and
  day arithmetic are order- and difference-isomorphic to this model;
* monetary values are modelled as rationals;
* fallible operations return `Option` / `Except`.

Each embedded definition mirrors one function of the source tree
(`fundamental_engine`); the file then proves or refutes the frozen
claims about the spec.
-/

namespace ChronoFund

/-- Seconds in a calendar day. -/
def SECONDS_PER_DAY : ℤ := 86400

/-- Embeds `datetime.datetime.combine(d, datetime.time(23, 59, 59))`:
the last second of day `d`. -/
def end_of_day (d : ℤ) : ℤ := SECONDS_PER_DAY * d + 86399

/-- Embeds `datetime.datetime.combine(d, datetime.time(0, 0, 0))`:
the first second of day `d`. -/
def start_of_day (d : ℤ) : ℤ := SECONDS_PER_DAY * d

/-- Embeds `fundamental_engine.utils.dates.is_within_cutoff`:
true iff `acceptance_datetime <= datetime.combine(cutoff_date, 23:59:59)`. -/
def is_within_cutoff (acceptance_datetime : ℤ) (cutoff_date : ℤ) : Bool :=
  decide (acceptance_datetime ≤ end_of_day cutoff_date)

/-- Embeds `fundamental_engine.utils.dates.period_duration_days`:
`(end - start).days`. -/
def period_duration_days (start «end» : ℤ) : ℤ := «end» - start

/-- Embeds `fundamental_engine.utils.dates.is_annual_period`
(start is `None` ⇒ `False`; otherwise `330 <= days <= 400`). -/
def is_annual_period (start : Option ℤ) («end» : ℤ) : Bool :=
  match start with
  | none => false
  | some s => decide (330 ≤ period_duration_days s «end» ∧ period_duration_days s «end» ≤ 400)

/-- Embeds `fundamental_engine.utils.dates.is_quarterly_period`
(start is `None` ⇒ `False`; otherwise `75 <= days <= 100`). -/
def is_quarterly_period (start : Option ℤ) («end» : ℤ) : Bool :=
  match start with
  | none => false
  | some s => decide (75 ≤ period_duration_days s «end» ∧ period_duration_days s «end» ≤ 100)

/-- Embeds `fundamental_engine.types.FilingRecord` (the fields the PIT
core reads; `acceptance_datetime` in seconds, the date fields in days). -/
structure FilingRecord where
  cik : String
  accession : String
  form_type : String
  filing_date : ℤ
  acceptance_datetime : ℤ
  period_of_report : ℤ
  ticker : String
  deriving DecidableEq, Repr

/-- One index-aligned entry of the SEC submissions parallel arrays, as
consumed by `FilingsIndex._parse_filings`.  A field is `none` when the
raw string is missing/empty or fails to parse (the Python code skips
such entries via its `try/except`). -/
structure FilingEntry where
  form : String
  acceptanceDateTime : Option ℤ
  filingDate : Option ℤ
  reportDate : Option ℤ
  accessionNumber : String
  deriving DecidableEq, Repr

/-- Embeds the accession normalization in `FilingsIndex._parse_filings`:
strip dashes and spaces, and re-insert dashes as `NNNNNNNNNN-NN-NNNNNN`
when the stripped form has 18 characters. -/
def normalize_accession (raw : String) : String :=
  let a := (raw.replace "-" "").replace " " ""
  if a.length = 18 then
    a.take 10 ++ "-" ++ (a.drop 10).take 2 ++ "-" ++ a.drop 12
  else raw

/-- The acceptance datetime `FilingsIndex._parse_filings` resolves for an
entry: the parsed `acceptanceDateTime` when present, else end-of-day on
the filing date, else `none` (entry skipped). -/
def resolved_acceptance (e : FilingEntry) : Option ℤ :=
  match e.acceptanceDateTime with
  | some a => some a
  | none =>
    match e.filingDate with
    | some fd => some (end_of_day fd)
    | none => none

/-- Embeds the per-entry body of the loop in
`FilingsIndex._parse_filings`: skip entries whose form is not allowed,
resolve the acceptance datetime (falling back to end-of-day of the
filing date), apply the PIT gate `is_within_cutoff`, require a parseable
`reportDate`, and build the `FilingRecord`. -/
def parse_entry (cik ticker : String) (allowed_forms : List String)
    (cutoff_date : ℤ) (e : FilingEntry) : Option FilingRecord :=
  if e.form ∈ allowed_forms then
    match resolved_acceptance e with
    | none => none
    | some acc_dt =>
      if is_within_cutoff acc_dt cutoff_date then
        match e.reportDate with
        | none => none
        | some period_end =>
          some
            { cik := cik
              accession := normalize_accession e.accessionNumber
              form_type := e.form
              filing_date := e.filingDate.getD period_end
              acceptance_datetime := acc_dt
              period_of_report := period_end
              ticker := ticker }
      else none
  else none

/-- Embeds `FilingsIndex._parse_filings`: the loop over the aligned
entries, keeping the records `parse_entry` accepts. -/
def parse_filings (cik ticker : String) (allowed_forms : List String)
    (cutoff_date : ℤ) (entries : List FilingEntry) : List FilingRecord :=
  entries.filterMap (parse_entry cik ticker allowed_forms cutoff_date)

/-- Claim C1: in the filings index, a filing that passes the other
parse checks (allowed form, resolvable acceptance datetime, parseable
report date) is kept if and only if its acceptance datetime is on or
before 23:59:59 of the cutoff date; every emitted record satisfies the
gate, an acceptance of exactly cutoff 23:59:59 is included, and an
acceptance of 00:00:00 on the day after the cutoff is excluded. -/
theorem c1_pit_gate_filings_index
    (cik ticker : String) (allowed_forms : List String)
    (cutoff_date : ℤ) (entries : List FilingEntry) (e : FilingEntry) :
    (∀ r ∈ parse_filings cik ticker allowed_forms cutoff_date entries,
      is_within_cutoff r.acceptance_datetime cutoff_date = true)
    ∧ (∀ acc_dt period_end,
        e.form ∈ allowed_forms →
        resolved_acceptance e = some acc_dt →
        e.reportDate = some period_end →
        ((is_within_cutoff acc_dt cutoff_date = true →
            ∃ r, parse_entry cik ticker allowed_forms cutoff_date e = some r ∧
              r.acceptance_datetime = acc_dt ∧ r.period_of_report = period_end)
          ∧ (is_within_cutoff acc_dt cutoff_date = false →
            parse_entry cik ticker allowed_forms cutoff_date e = none)))
    ∧ is_within_cutoff (end_of_day cutoff_date) cutoff_date = true
    ∧ is_within_cutoff (start_of_day (cutoff_date + 1)) cutoff_date = false := by
  refine ⟨?_, ?_, ?_, ?_⟩
  · intro r hr
    rw [parse_filings, List.mem_filterMap] at hr
    obtain ⟨a, -, ha⟩ := hr
    rw [parse_entry] at ha
    split at ha
    · split at ha
      · exact absurd ha (by simp)
      · split at ha
        · split at ha
          · exact absurd ha (by simp)
          · cases ha
            assumption
        · exact absurd ha (by simp)
    · exact absurd ha (by simp)
  · intro acc_dt period_end hform hacc hrep
    constructor
    · intro hcut
      have hpe : parse_entry cik ticker allowed_forms cutoff_date e = some
          { cik := cik
            accession := normalize_accession e.accessionNumber
            form_type := e.form
            filing_date := e.filingDate.getD period_end
            acceptance_datetime := acc_dt
            period_of_report := period_end
            ticker := ticker } := by
        simp [parse_entry, hform, hacc, hcut, hrep]
      exact ⟨_, hpe, rfl, rfl⟩
    · intro hcut
      simp [parse_entry, hform, hacc, hcut, hrep]
  · simp [is_within_cutoff]
  · simp only [is_within_cutoff, start_of_day, end_of_day, SECONDS_PER_DAY,
      decide_eq_false_iff_not, not_le]
    linarith

/-- Witness for C1 at a concrete entry: cutoff day 17166, an entry whose
acceptance is exactly the last second of the cutoff day is kept, and
the boundary facts hold. -/
theorem c1_pit_gate_filings_index_witness :
    ∃ r, parse_entry "0000320193" "AAPL" ["10-K"] 17166
        { form := "10-K", acceptanceDateTime := some (end_of_day 17166),
          filingDate := some 17160, reportDate := some 17100,
          accessionNumber := "000032019316000001" } = some r ∧
      r.acceptance_datetime = end_of_day 17166 ∧ r.period_of_report = 17100 := by
  have h := c1_pit_gate_filings_index "0000320193" "AAPL" ["10-K"] 17166 []
    { form := "10-K", acceptanceDateTime := some (end_of_day 17166),
      filingDate := some 17160, reportDate := some 17100,
      accessionNumber := "000032019316000001" }
  exact h.2.1 (end_of_day 17166) 17100 (by simp) rfl rfl |>.1 (by decide)

/-- Embeds `fundamental_engine.types.XBRLContextType`. -/
inductive XBRLContextType where
  | INSTANT
  | DURATION
  deriving DecidableEq, Repr

/-- Embeds `fundamental_engine.types.XBRLFact` (dates in days). -/
structure XBRLFact where
  tag : String
  value : ℚ
  unit : String
  start : Option ℤ
  «end» : ℤ
  accession : String
  form : String
  frame : Option String
  filed : ℤ
  deriving DecidableEq, Repr

/-- Python truthiness of `fact.frame` (`if f.frame`): a frame label that
is present and non-empty. -/
def truthy_frame (f : XBRLFact) : Bool :=
  match f.frame with
  | none => false
  | some s => !(s = "")

/-- Embeds `fundamental_engine.edgar.xbrl.contexts.filter_facts_by_period_type`:
for `INSTANT` keep facts whose `start` is null; for `DURATION` keep facts
with a `start` whose span is annual (330-400 days) when `annual`, else
quarterly (75-100 days). -/
def filter_facts_by_period_type (facts : List XBRLFact)
    (context_type : XBRLContextType) (annual : Bool) : List XBRLFact :=
  match facts with
  | [] => []
  | f :: fs =>
    match context_type with
    | .INSTANT =>
      if f.start = none then f :: filter_facts_by_period_type fs context_type annual
      else filter_facts_by_period_type fs context_type annual
    | .DURATION =>
      if f.start.isSome then
        if annual && is_annual_period f.start f.«end» then
          f :: filter_facts_by_period_type fs context_type annual
        else if !annual && is_quarterly_period f.start f.«end» then
          f :: filter_facts_by_period_type fs context_type annual
        else filter_facts_by_period_type fs context_type annual
      else filter_facts_by_period_type fs context_type annual

/-- The per-fact keep condition of `filter_facts_by_period_type`, as a
single boolean predicate. -/
def keeps_period_type (context_type : XBRLContextType) (annual : Bool)
    (f : XBRLFact) : Bool :=
  match context_type with
  | .INSTANT => f.start = none
  | .DURATION =>
    f.start.isSome &&
      (annual && is_annual_period f.start f.«end» ||
        !annual && is_quarterly_period f.start f.«end»)

theorem filter_facts_eq_filter (facts : List XBRLFact)
    (context_type : XBRLContextType) (annual : Bool) :
    filter_facts_by_period_type facts context_type annual =
      facts.filter (keeps_period_type context_type annual) := by
  induction facts with
  | nil => cases context_type <;> rfl
  | cons f fs ih =>
    cases context_type with
    | INSTANT =>
      by_cases h : f.start = none <;>
        simp [filter_facts_by_period_type, keeps_period_type, List.filter_cons, h, ih]
    | DURATION =>
      rw [filter_facts_by_period_type, List.filter_cons]
      by_cases h1 : f.start.isSome
      · by_cases h2 : (annual && is_annual_period f.start f.«end») = true
        · simp [keeps_period_type, h1, h2, ih]
        · by_cases h3 : (!annual && is_quarterly_period f.start f.«end») = true
          · simp [keeps_period_type, h1, h2, h3, ih]
          · simp [keeps_period_type, h1, h2, h3, ih]
      · simp [keeps_period_type, h1, ih]

/-- Claim C3: membership in the period-type filter output, for instant
context, is exactly null `start`; for duration context it is a non-null
`start` with the span in the inclusive annual window 330-400 days, or
the inclusive quarterly window 75-100 days; with the boundary spans
330/400 annual, 329/401 neither, 75/100 quarterly. -/
theorem c3_period_type_filter_spec (facts : List XBRLFact)
    (annual : Bool) (f : XBRLFact) (s : ℤ) :
    (f ∈ filter_facts_by_period_type facts .INSTANT annual ↔
      f ∈ facts ∧ f.start = none)
    ∧ (f ∈ filter_facts_by_period_type facts .DURATION annual ↔
      f ∈ facts ∧ ∃ d, f.start = some d ∧
        (if annual then 330 ≤ f.«end» - d ∧ f.«end» - d ≤ 400
         else 75 ≤ f.«end» - d ∧ f.«end» - d ≤ 100))
    ∧ is_annual_period (some s) (s + 330) = true
    ∧ is_annual_period (some s) (s + 329) = false
    ∧ is_annual_period (some s) (s + 400) = true
    ∧ is_annual_period (some s) (s + 401) = false
    ∧ is_quarterly_period (some s) (s + 329) = false
    ∧ is_quarterly_period (some s) (s + 401) = false
    ∧ is_quarterly_period (some s) (s + 75) = true
    ∧ is_quarterly_period (some s) (s + 100) = true := by
  have hkeep : ∀ g : XBRLFact,
      keeps_period_type .DURATION annual g = true ↔
        ∃ d, g.start = some d ∧
          (if annual then 330 ≤ g.«end» - d ∧ g.«end» - d ≤ 400
           else 75 ≤ g.«end» - d ∧ g.«end» - d ≤ 100) := by
    intro g
    cases hs : g.start with
    | none => simp [keeps_period_type, hs]
    | some d =>
      cases annual with
      | true => simp [keeps_period_type, hs, is_annual_period, period_duration_days]
      | false => simp [keeps_period_type, hs, is_quarterly_period, period_duration_days]
  refine ⟨?_, ?_, ?_, ?_, ?_, ?_, ?_, ?_, ?_, ?_⟩
  · rw [filter_facts_eq_filter, List.mem_filter]
    simp [keeps_period_type]
  · rw [filter_facts_eq_filter, List.mem_filter, hkeep]
  · simp [is_annual_period, period_duration_days]
  · simp [is_annual_period, period_duration_days]
  · simp [is_annual_period, period_duration_days]
  · simp [is_annual_period, period_duration_days]
  · simp [is_quarterly_period, period_duration_days]
  · simp [is_quarterly_period, period_duration_days]
  · simp [is_quarterly_period, period_duration_days]
  · simp [is_quarterly_period, period_duration_days]

/-- Embeds Python `max(pool, key=lambda f: f.filed)`: the first element
with the maximal `filed` date (`max` replaces the running best only on a
strictly greater key); `none` on the empty list. -/
def max_by_filed (pool : List XBRLFact) : Option XBRLFact :=
  match pool with
  | [] => none
  | f :: fs => some (fs.foldl (fun best g => if best.filed < g.filed then g else best) f)

/-- Embeds `abs((f.end - period_end).days)` from
`select_best_fact_for_period`. -/
def fact_dist (period_end : ℤ) (f : XBRLFact) : ℤ := |f.«end» - period_end|

/-- Embeds Python `min(abs((f.end - period_end).days) for f in fuzzy)`:
the minimal absolute day distance; `none` on the empty list. -/
def min_dist (period_end : ℤ) (fuzzy : List XBRLFact) : Option ℤ :=
  match fuzzy with
  | [] => none
  | f :: fs => some (fs.foldl (fun m g => min m (fact_dist period_end g)) (fact_dist period_end f))

/-- Embeds the inline frame preference of `select_best_fact_for_period`
(`framed = [f for f in pool if f.frame]; pool = framed if framed else pool`),
which is also the body of `prefer_consolidated`. -/
def framed_pool (pool : List XBRLFact) : List XBRLFact :=
  if (pool.filter truthy_frame).isEmpty then pool else pool.filter truthy_frame

/-- The PIT-eligible facts of `select_best_fact_for_period`:
`[f for f in facts if f.filed <= cutoff_date]`. -/
def pit_eligible (facts : List XBRLFact) (cutoff_date : ℤ) : List XBRLFact :=
  facts.filter fun f => decide (f.filed ≤ cutoff_date)

/-- The exact period-end matches of `select_best_fact_for_period`:
`[f for f in eligible if f.end == period_end]`. -/
def exact_matches (facts : List XBRLFact) (period_end cutoff_date : ℤ) : List XBRLFact :=
  (pit_eligible facts cutoff_date).filter fun f => decide (f.«end» = period_end)

/-- The fuzzy matches of `select_best_fact_for_period`:
`[f for f in eligible if abs((f.end - period_end).days) <= 7]`. -/
def fuzzy_matches (facts : List XBRLFact) (period_end cutoff_date : ℤ) : List XBRLFact :=
  (pit_eligible facts cutoff_date).filter fun f => decide (fact_dist period_end f ≤ 7)

/-- The minimum-distance restriction of the fuzzy matches:
`closest = [f for f in fuzzy if abs((f.end - period_end).days) == best_distance]`. -/
def closest_matches (facts : List XBRLFact) (period_end cutoff_date : ℤ) : List XBRLFact :=
  match min_dist period_end (fuzzy_matches facts period_end cutoff_date) with
  | none => []
  | some best_distance =>
    (fuzzy_matches facts period_end cutoff_date).filter
      fun f => decide (fact_dist period_end f = best_distance)

/-- Embeds `fundamental_engine.edgar.xbrl.contexts.select_best_fact_for_period`:
PIT-filter by `filed <= cutoff_date`; return the latest-filed
(frame-preferred) exact `end == period_end` match when one exists;
otherwise the latest-filed (frame-preferred) fact at the minimum
absolute distance among those within 7 days; otherwise nothing. -/
def select_best_fact_for_period (facts : List XBRLFact)
    (period_end cutoff_date : ℤ) : Option XBRLFact :=
  if (pit_eligible facts cutoff_date).isEmpty then none
  else if !(exact_matches facts period_end cutoff_date).isEmpty then
    max_by_filed (framed_pool (exact_matches facts period_end cutoff_date))
  else if !(fuzzy_matches facts period_end cutoff_date).isEmpty then
    max_by_filed (framed_pool (closest_matches facts period_end cutoff_date))
  else none

theorem foldl_filed_mem (xs : List XBRLFact) : ∀ a : XBRLFact,
    xs.foldl (fun best g => if best.filed < g.filed then g else best) a ∈ a :: xs := by
  induction xs with
  | nil => intro a; simp
  | cons x xs ih =>
    intro a
    rw [List.foldl_cons]
    by_cases hx : a.filed < x.filed
    · rw [if_pos hx]
      have := ih x
      simp only [List.mem_cons] at this ⊢
      tauto
    · rw [if_neg hx]
      have := ih a
      simp only [List.mem_cons] at this ⊢
      tauto

theorem foldl_filed_le (xs : List XBRLFact) : ∀ a : XBRLFact, ∀ y ∈ a :: xs,
    y.filed ≤ (xs.foldl (fun best g => if best.filed < g.filed then g else best) a).filed := by
  induction xs with
  | nil => intro a y hy; simp at hy; subst hy; rfl
  | cons x xs ih =>
    intro a y hy
    rw [List.foldl_cons]
    simp only [List.mem_cons] at hy
    by_cases hx : a.filed < x.filed
    · rw [if_pos hx]
      rcases hy with rfl | rfl | hy
      · exact le_of_lt (lt_of_lt_of_le hx (ih x x (by simp)))
      · exact ih y y (by simp)
      · exact ih x y (by simp [hy])
    · rw [if_neg hx]
      rcases hy with rfl | rfl | hy
      · exact ih y y (by simp)
      · exact le_trans (not_lt.mp hx) (ih a a (by simp))
      · exact ih a y (by simp [hy])

theorem max_by_filed_mem (pool : List XBRLFact) (f : XBRLFact)
    (h : max_by_filed pool = some f) : f ∈ pool := by
  cases pool with
  | nil => exact absurd h (by simp [max_by_filed])
  | cons g gs =>
    rw [max_by_filed, Option.some.injEq] at h
    subst h
    exact foldl_filed_mem gs g

theorem max_by_filed_le (pool : List XBRLFact) (f : XBRLFact)
    (h : max_by_filed pool = some f) : ∀ g ∈ pool, g.filed ≤ f.filed := by
  cases pool with
  | nil => exact absurd h (by simp [max_by_filed])
  | cons g gs =>
    rw [max_by_filed, Option.some.injEq] at h
    subst h
    exact foldl_filed_le gs g

theorem max_by_filed_isSome (pool : List XBRLFact) (h : pool ≠ []) :
    ∃ f, max_by_filed pool = some f := by
  cases pool with
  | nil => exact absurd rfl h
  | cons g gs => exact ⟨_, rfl⟩

theorem foldl_min_attained (period_end : ℤ) (xs : List XBRLFact) : ∀ a : ℤ,
    (xs.foldl (fun m g => min m (fact_dist period_end g)) a = a ∨
      ∃ g ∈ xs, xs.foldl (fun m g => min m (fact_dist period_end g)) a = fact_dist period_end g) := by
  induction xs with
  | nil => intro a; simp
  | cons x xs ih =>
    intro a
    rw [List.foldl_cons]
    rcases le_total a (fact_dist period_end x) with hax | hax
    · rw [min_eq_left hax]
      rcases ih a with h | ⟨g, hg, h⟩
      · exact Or.inl h
      · exact Or.inr ⟨g, by simp [hg], h⟩
    · rw [min_eq_right hax]
      rcases ih (fact_dist period_end x) with h | ⟨g, hg, h⟩
      · exact Or.inr ⟨x, by simp, h⟩
      · exact Or.inr ⟨g, by simp [hg], h⟩

theorem foldl_min_le (period_end : ℤ) (xs : List XBRLFact) : ∀ a : ℤ,
    xs.foldl (fun m g => min m (fact_dist period_end g)) a ≤ a ∧
      ∀ g ∈ xs, xs.foldl (fun m g => min m (fact_dist period_end g)) a ≤ fact_dist period_end g := by
  induction xs with
  | nil => intro a; simp
  | cons x xs ih =>
    intro a
    rw [List.foldl_cons]
    obtain ⟨h1, h2⟩ := ih (min a (fact_dist period_end x))
    refine ⟨le_trans h1 (min_le_left _ _), ?_⟩
    intro g hg
    simp only [List.mem_cons] at hg
    rcases hg with rfl | hg
    · exact le_trans h1 (min_le_right _ _)
    · exact h2 g hg

theorem min_dist_spec (period_end : ℤ) (fuzzy : List XBRLFact) (m : ℤ)
    (h : min_dist period_end fuzzy = some m) :
    (∃ f ∈ fuzzy, fact_dist period_end f = m) ∧
      ∀ f ∈ fuzzy, m ≤ fact_dist period_end f := by
  cases fuzzy with
  | nil => exact absurd h (by simp [min_dist])
  | cons g gs =>
    rw [min_dist, Option.some.injEq] at h
    subst h
    constructor
    · rcases foldl_min_attained period_end gs (fact_dist period_end g) with h | ⟨x, hx, h⟩
      · exact ⟨g, by simp, h.symm⟩
      · exact ⟨x, by simp [hx], h.symm⟩
    · intro f hf
      obtain ⟨h1, h2⟩ := foldl_min_le period_end gs (fact_dist period_end g)
      simp only [List.mem_cons] at hf
      rcases hf with rfl | hf
      · exact h1
      · exact h2 f hf

theorem min_dist_isSome (period_end : ℤ) (fuzzy : List XBRLFact) (h : fuzzy ≠ []) :
    ∃ m, min_dist period_end fuzzy = some m := by
  cases fuzzy with
  | nil => exact absurd rfl h
  | cons g gs => exact ⟨_, rfl⟩

theorem mem_framed_pool (pool : List XBRLFact) (f : XBRLFact) :
    f ∈ framed_pool pool ↔
      f ∈ pool ∧ ((∃ h ∈ pool, truthy_frame h = true) → truthy_frame f = true) := by
  rw [framed_pool]
  by_cases hempty : (pool.filter truthy_frame).isEmpty
  · rw [if_pos hempty]
    rw [List.isEmpty_iff, List.filter_eq_nil_iff] at hempty
    constructor
    · intro hf
      refine ⟨hf, ?_⟩
      rintro ⟨h, hh, hframe⟩
      exact absurd hframe (by simpa using hempty h hh)
    · exact fun h => h.1
  · rw [if_neg hempty, List.mem_filter]
    rw [List.isEmpty_iff] at hempty
    obtain ⟨x, hx⟩ := List.exists_mem_of_ne_nil _ hempty
    rw [List.mem_filter] at hx
    constructor
    · exact fun h => ⟨h.1, fun _ => h.2⟩
    · exact fun h => ⟨h.1, h.2 ⟨x, hx.1, hx.2⟩⟩

theorem framed_pool_ne_nil (pool : List XBRLFact) (h : pool ≠ []) :
    framed_pool pool ≠ [] := by
  rw [framed_pool]
  by_cases hempty : (pool.filter truthy_frame).isEmpty
  · rw [if_pos hempty]; exact h
  · rw [if_neg hempty]
    rwa [List.isEmpty_iff] at hempty

theorem mem_pit_eligible (facts : List XBRLFact) (cutoff_date : ℤ) (f : XBRLFact) :
    f ∈ pit_eligible facts cutoff_date ↔ f ∈ facts ∧ f.filed ≤ cutoff_date := by
  simp [pit_eligible, List.mem_filter]

theorem mem_exact_matches (facts : List XBRLFact) (period_end cutoff_date : ℤ) (f : XBRLFact) :
    f ∈ exact_matches facts period_end cutoff_date ↔
      f ∈ facts ∧ f.filed ≤ cutoff_date ∧ f.«end» = period_end := by
  simp [exact_matches, List.mem_filter, mem_pit_eligible, and_assoc]

theorem mem_fuzzy_matches (facts : List XBRLFact) (period_end cutoff_date : ℤ) (f : XBRLFact) :
    f ∈ fuzzy_matches facts period_end cutoff_date ↔
      f ∈ facts ∧ f.filed ≤ cutoff_date ∧ |f.«end» - period_end| ≤ 7 := by
  simp [fuzzy_matches, List.mem_filter, mem_pit_eligible, fact_dist, and_assoc]

theorem mem_closest_matches (facts : List XBRLFact) (period_end cutoff_date : ℤ)
    (hne : fuzzy_matches facts period_end cutoff_date ≠ []) (f : XBRLFact) :
    f ∈ closest_matches facts period_end cutoff_date ↔
      f ∈ fuzzy_matches facts period_end cutoff_date ∧
        ∀ g ∈ fuzzy_matches facts period_end cutoff_date,
          fact_dist period_end f ≤ fact_dist period_end g := by
  obtain ⟨m, hm⟩ := min_dist_isSome period_end _ hne
  obtain ⟨⟨g0, hg0, hg0d⟩, hmin⟩ := min_dist_spec period_end _ m hm
  rw [closest_matches, hm]
  simp only [List.mem_filter, decide_eq_true_eq]
  constructor
  · rintro ⟨hf, hfd⟩
    exact ⟨hf, fun g hg => hfd ▸ hmin g hg⟩
  · rintro ⟨hf, hall⟩
    exact ⟨hf, le_antisymm (le_trans (hall g0 hg0) (le_of_eq hg0d)) (hmin f hf)⟩

theorem closest_matches_ne_nil (facts : List XBRLFact) (period_end cutoff_date : ℤ)
    (hne : fuzzy_matches facts period_end cutoff_date ≠ []) :
    closest_matches facts period_end cutoff_date ≠ [] := by
  obtain ⟨m, hm⟩ := min_dist_isSome period_end _ hne
  obtain ⟨⟨g0, hg0, hg0d⟩, hmin⟩ := min_dist_spec period_end _ m hm
  have : g0 ∈ closest_matches facts period_end cutoff_date := by
    rw [mem_closest_matches facts period_end cutoff_date hne]
    exact ⟨hg0, fun g hg => hg0d ▸ hmin g hg⟩
  exact List.ne_nil_of_mem this

/-- A fact eligible for the exact stage of `select_best_fact_for_period`:
in the input, filed within the cutoff, ending exactly on the desired
period end. -/
def exact_candidate (facts : List XBRLFact) (period_end cutoff_date : ℤ)
    (g : XBRLFact) : Prop :=
  g ∈ facts ∧ g.filed ≤ cutoff_date ∧ g.«end» = period_end

/-- A fact eligible for the fuzzy stage of `select_best_fact_for_period`:
in the input, filed within the cutoff, ending within 7 days of the
desired period end. -/
def fuzzy_candidate (facts : List XBRLFact) (period_end cutoff_date : ℤ)
    (g : XBRLFact) : Prop :=
  g ∈ facts ∧ g.filed ≤ cutoff_date ∧ |g.«end» - period_end| ≤ 7

/-- A fuzzy candidate at the minimum absolute day distance. -/
def closest_candidate (facts : List XBRLFact) (period_end cutoff_date : ℤ)
    (g : XBRLFact) : Prop :=
  fuzzy_candidate facts period_end cutoff_date g ∧
    ∀ h, fuzzy_candidate facts period_end cutoff_date h →
      |g.«end» - period_end| ≤ |h.«end» - period_end|

theorem exact_candidate_iff_mem (facts : List XBRLFact) (period_end cutoff_date : ℤ)
    (g : XBRLFact) :
    exact_candidate facts period_end cutoff_date g ↔
      g ∈ exact_matches facts period_end cutoff_date := by
  rw [mem_exact_matches]; rfl

theorem fuzzy_candidate_iff_mem (facts : List XBRLFact) (period_end cutoff_date : ℤ)
    (g : XBRLFact) :
    fuzzy_candidate facts period_end cutoff_date g ↔
      g ∈ fuzzy_matches facts period_end cutoff_date := by
  rw [mem_fuzzy_matches]; rfl

theorem closest_candidate_iff_mem (facts : List XBRLFact) (period_end cutoff_date : ℤ)
    (hne : fuzzy_matches facts period_end cutoff_date ≠ []) (g : XBRLFact) :
    closest_candidate facts period_end cutoff_date g ↔
      g ∈ closest_matches facts period_end cutoff_date := by
  rw [mem_closest_matches facts period_end cutoff_date hne, closest_candidate]
  constructor
  · rintro ⟨hf, hall⟩
    refine ⟨(fuzzy_candidate_iff_mem _ _ _ _).mp hf, ?_⟩
    intro h hh
    exact hall h ((fuzzy_candidate_iff_mem _ _ _ _).mpr hh)
  · rintro ⟨hf, hall⟩
    refine ⟨(fuzzy_candidate_iff_mem _ _ _ _).mpr hf, ?_⟩
    intro h hh
    exact hall h ((fuzzy_candidate_iff_mem _ _ _ _).mp hh)

/-- Claim C2: `select_best_fact_for_period` first discards facts filed
after the cutoff; when an eligible fact ends exactly on the period end,
it returns the latest-filed member of the exact matches (restricted to
framed ones when any exist); otherwise it returns, among the eligible
facts within 7 days of the period end, the latest-filed (frame-preferred)
fact at minimum absolute day distance; and it returns nothing when no
eligible fact is within 7 days (so distance 7 is accepted and distance 8
rejected). -/
theorem c2_select_best_fact_for_period_spec (facts : List XBRLFact)
    (period_end cutoff_date : ℤ) :
    (∀ f, select_best_fact_for_period facts period_end cutoff_date = some f →
      f ∈ facts ∧ f.filed ≤ cutoff_date ∧ |f.«end» - period_end| ≤ 7)
    ∧ ((∃ g, exact_candidate facts period_end cutoff_date g) →
      ∃ f, select_best_fact_for_period facts period_end cutoff_date = some f ∧
        exact_candidate facts period_end cutoff_date f ∧
        ((∃ h, exact_candidate facts period_end cutoff_date h ∧ truthy_frame h = true) →
          truthy_frame f = true) ∧
        (∀ g, exact_candidate facts period_end cutoff_date g →
          ((∃ h, exact_candidate facts period_end cutoff_date h ∧ truthy_frame h = true) →
            truthy_frame g = true) →
          g.filed ≤ f.filed))
    ∧ ((¬ ∃ g, exact_candidate facts period_end cutoff_date g) →
      (∃ g, fuzzy_candidate facts period_end cutoff_date g) →
      ∃ f, select_best_fact_for_period facts period_end cutoff_date = some f ∧
        closest_candidate facts period_end cutoff_date f ∧
        ((∃ h, closest_candidate facts period_end cutoff_date h ∧ truthy_frame h = true) →
          truthy_frame f = true) ∧
        (∀ g, closest_candidate facts period_end cutoff_date g →
          ((∃ h, closest_candidate facts period_end cutoff_date h ∧ truthy_frame h = true) →
            truthy_frame g = true) →
          g.filed ≤ f.filed))
    ∧ ((∀ g, ¬ fuzzy_candidate facts period_end cutoff_date g) →
      select_best_fact_for_period facts period_end cutoff_date = none) := by
  refine ⟨?_, ?_, ?_, ?_⟩
  · intro f hf
    rw [select_best_fact_for_period] at hf
    split at hf
    · exact absurd hf (by simp)
    · split at hf
      · have hmem := max_by_filed_mem _ _ hf
        rw [mem_framed_pool] at hmem
        have := (mem_exact_matches _ _ _ _).mp hmem.1
        exact ⟨this.1, this.2.1, by simp [this.2.2]⟩
      · split at hf
        · have hmem := max_by_filed_mem _ _ hf
          rw [mem_framed_pool] at hmem
          have hfz : fuzzy_matches facts period_end cutoff_date ≠ [] := by
            rename_i hnonempty
            simpa [List.isEmpty_iff] using hnonempty
          have hcl := (mem_closest_matches _ _ _ hfz _).mp hmem.1
          exact (mem_fuzzy_matches _ _ _ _).mp hcl.1
        · exact absurd hf (by simp)
  · rintro ⟨g, hg⟩
    have hgE := (exact_candidate_iff_mem _ _ _ _).mp hg
    have hEne : exact_matches facts period_end cutoff_date ≠ [] := List.ne_nil_of_mem hgE
    have hPne : (pit_eligible facts cutoff_date).isEmpty = false := by
      rw [List.isEmpty_eq_false_iff_exists_mem]
      exact ⟨g, (mem_pit_eligible _ _ _).mpr ⟨hg.1, hg.2.1⟩⟩
    have hEmp : (exact_matches facts period_end cutoff_date).isEmpty = false := by
      rw [List.isEmpty_eq_false_iff_exists_mem]
      exact ⟨g, hgE⟩
    have hsel : select_best_fact_for_period facts period_end cutoff_date =
        max_by_filed (framed_pool (exact_matches facts period_end cutoff_date)) := by
      rw [select_best_fact_for_period, hPne, hEmp]
      simp
    obtain ⟨f, hf⟩ := max_by_filed_isSome _
      (framed_pool_ne_nil _ hEne)
    have hfmem := (mem_framed_pool _ _).mp (max_by_filed_mem _ _ hf)
    refine ⟨f, hsel ▸ hf, (exact_candidate_iff_mem _ _ _ _).mpr hfmem.1, ?_, ?_⟩
    · rintro ⟨h, hh, hhf⟩
      exact hfmem.2 ⟨h, (exact_candidate_iff_mem _ _ _ _).mp hh, hhf⟩
    · intro y hy hyframe
      refine max_by_filed_le _ _ hf y ?_
      rw [mem_framed_pool]
      refine ⟨(exact_candidate_iff_mem _ _ _ _).mp hy, ?_⟩
      rintro ⟨h, hh, hhf⟩
      exact hyframe ⟨h, (exact_candidate_iff_mem _ _ _ _).mpr hh, hhf⟩
  · intro hnoexact
    rintro ⟨g, hg⟩
    have hgF := (fuzzy_candidate_iff_mem _ _ _ _).mp hg
    have hFne : fuzzy_matches facts period_end cutoff_date ≠ [] := List.ne_nil_of_mem hgF
    have hPne : (pit_eligible facts cutoff_date).isEmpty = false := by
      rw [List.isEmpty_eq_false_iff_exists_mem]
      exact ⟨g, (mem_pit_eligible _ _ _).mpr ⟨hg.1, hg.2.1⟩⟩
    have hEmp : (exact_matches facts period_end cutoff_date).isEmpty = true := by
      rw [List.isEmpty_iff, List.eq_nil_iff_forall_not_mem]
      intro x hx
      exact hnoexact ⟨x, (exact_candidate_iff_mem _ _ _ _).mpr hx⟩
    have hFmp : (fuzzy_matches facts period_end cutoff_date).isEmpty = false := by
      rw [List.isEmpty_eq_false_iff_exists_mem]
      exact ⟨g, hgF⟩
    have hsel : select_best_fact_for_period facts period_end cutoff_date =
        max_by_filed (framed_pool (closest_matches facts period_end cutoff_date)) := by
      rw [select_best_fact_for_period, hPne, hEmp, hFmp]
      simp
    obtain ⟨f, hf⟩ := max_by_filed_isSome _
      (framed_pool_ne_nil _ (closest_matches_ne_nil _ _ _ hFne))
    have hfmem := (mem_framed_pool _ _).mp (max_by_filed_mem _ _ hf)
    refine ⟨f, hsel ▸ hf, (closest_candidate_iff_mem _ _ _ hFne _).mpr hfmem.1, ?_, ?_⟩
    · rintro ⟨h, hh, hhf⟩
      exact hfmem.2 ⟨h, (closest_candidate_iff_mem _ _ _ hFne _).mp hh, hhf⟩
    · intro y hy hyframe
      refine max_by_filed_le _ _ hf y ?_
      rw [mem_framed_pool]
      refine ⟨(closest_candidate_iff_mem _ _ _ hFne _).mp hy, ?_⟩
      rintro ⟨h, hh, hhf⟩
      exact hyframe ⟨h, (closest_candidate_iff_mem _ _ _ hFne _).mpr hh, hhf⟩
  · intro hall
    have hFmp : (fuzzy_matches facts period_end cutoff_date).isEmpty = true := by
      rw [List.isEmpty_iff, List.eq_nil_iff_forall_not_mem]
      intro x hx
      exact hall x ((fuzzy_candidate_iff_mem _ _ _ _).mpr hx)
    have hEmp : (exact_matches facts period_end cutoff_date).isEmpty = true := by
      rw [List.isEmpty_iff, List.eq_nil_iff_forall_not_mem]
      intro x hx
      have hx2 := (mem_exact_matches _ _ _ _).mp hx
      exact hall x ((fuzzy_candidate_iff_mem _ _ _ _).mpr
        ((mem_fuzzy_matches _ _ _ _).mpr ⟨hx2.1, hx2.2.1, by simp [hx2.2.2]⟩))
    rw [select_best_fact_for_period]
    by_cases hP : (pit_eligible facts cutoff_date).isEmpty
    · rw [if_pos hP]
    · rw [if_neg hP, hEmp, hFmp]
      simp

/-- A concrete fact ending 7 days after the desired period end 100. -/
def c2_fact_dist7 : XBRLFact :=
  { tag := "us-gaap:Revenues", value := 5, unit := "USD", start := some 0,
    «end» := 107, accession := "a1", form := "10-K", frame := none, filed := 150 }

/-- A concrete fact ending 8 days after the desired period end 100. -/
def c2_fact_dist8 : XBRLFact :=
  { tag := "us-gaap:Revenues", value := 5, unit := "USD", start := some 0,
    «end» := 108, accession := "a2", form := "10-K", frame := none, filed := 150 }

/-- A concrete fact ending exactly on the desired period end 100. -/
def c2_fact_exact : XBRLFact :=
  { tag := "us-gaap:Revenues", value := 5, unit := "USD", start := some 0,
    «end» := 100, accession := "a3", form := "10-K", frame := none, filed := 150 }

/-- Witness for C2 at concrete inputs: an exact match is selected; a
lone fact at distance exactly 7 is selected through the fuzzy stage; a
lone fact at distance 8 yields nothing. -/
theorem c2_select_best_fact_for_period_spec_witness :
    (∃ f, select_best_fact_for_period [c2_fact_exact] 100 200 = some f ∧
      exact_candidate [c2_fact_exact] 100 200 f)
    ∧ (∃ f, select_best_fact_for_period [c2_fact_dist7] 100 200 = some f ∧
      closest_candidate [c2_fact_dist7] 100 200 f)
    ∧ select_best_fact_for_period [c2_fact_dist8] 100 200 = none := by
  refine ⟨?_, ?_, ?_⟩
  · obtain ⟨f, h1, h2, -⟩ := (c2_select_best_fact_for_period_spec [c2_fact_exact] 100 200).2.1
      ⟨c2_fact_exact, by simp, by norm_num [c2_fact_exact], by norm_num [c2_fact_exact]⟩
    exact ⟨f, h1, h2⟩
  · obtain ⟨f, h1, h2, -⟩ := (c2_select_best_fact_for_period_spec [c2_fact_dist7] 100 200).2.2.1
      (by
        rintro ⟨g, hg, -, hge⟩
        simp only [List.mem_singleton] at hg
        subst hg
        norm_num [c2_fact_dist7] at hge)
      ⟨c2_fact_dist7, by simp, by norm_num [c2_fact_dist7], by norm_num [c2_fact_dist7]⟩
    exact ⟨f, h1, h2⟩
  · refine (c2_select_best_fact_for_period_spec [c2_fact_dist8] 100 200).2.2.2 ?_
    rintro g ⟨hg, -, hge⟩
    simp only [List.mem_singleton] at hg
    subst hg
    norm_num [c2_fact_dist8] at hge

/-- Embeds `form_type.endswith(_AMENDMENT_SUFFIX)` from
`fundamental_engine.snapshot.selector` (`_AMENDMENT_SUFFIX = "/A"`). -/
def is_amendment (r : FilingRecord) : Bool := r.form_type.endsWith "/A"

/-- Embeds Python `max(candidates, key=lambda r: r.acceptance_datetime)`:
the first record with the maximal acceptance datetime. -/
def max_by_acceptance (candidates : List FilingRecord) : Option FilingRecord :=
  match candidates with
  | [] => none
  | c :: cs =>
    some (cs.foldl
      (fun best r => if best.acceptance_datetime < r.acceptance_datetime then r else best) c)

/-- The candidate restriction of `FilingSelector._pick_best`: when
amendments are allowed and the group contains any `/A` form, restrict to
the amendments; otherwise keep the whole group. -/
def restricted_candidates (allow_amendments : Bool)
    (candidates : List FilingRecord) : List FilingRecord :=
  if allow_amendments && !(candidates.filter is_amendment).isEmpty then
    candidates.filter is_amendment
  else candidates

/-- Embeds `FilingSelector._pick_best`: restrict to amendments when
allowed and present, then take the record with the latest
`acceptance_datetime`. -/
def pick_best (allow_amendments : Bool) (candidates : List FilingRecord) :
    Option FilingRecord :=
  max_by_acceptance (restricted_candidates allow_amendments candidates)

/-- First-occurrence-ordered distinct keys, as produced by iterating a
Python `defaultdict` built by insertion (`by_period` in
`FilingSelector.select`). -/
def period_keys : List ℤ → List ℤ
  | [] => []
  | p :: ps => p :: period_keys (ps.filter (fun q => q ≠ p))
termination_by l => l.length
decreasing_by
  simp only [List.length_cons]
  exact Nat.lt_succ_of_le (List.length_filter_le _ _)

/-- Insertion step of the descending stable sort used for
`selected.sort(key=lambda r: r.period_of_report, reverse=True)`. -/
def insert_desc (r : FilingRecord) : List FilingRecord → List FilingRecord
  | [] => [r]
  | x :: xs =>
    if x.period_of_report < r.period_of_report then r :: x :: xs
    else x :: insert_desc r xs

/-- Descending sort by `period_of_report` (insertion sort; agrees with
Python's stable sort because the keys sorted here are distinct). -/
def sort_desc_by_period : List FilingRecord → List FilingRecord
  | [] => []
  | x :: xs => insert_desc x (sort_desc_by_period xs)

/-- Embeds `FilingSelector.select` (with `self._allow_amendments`
resolved to the `allow_amendments` argument): re-assert the PIT gate —
raising `CutoffViolationError` carrying the first offending record —
then group by `period_of_report`, pick the best filing per group, and
sort descending by period. -/
def selector_select (allow_amendments : Bool) (filings : List FilingRecord)
    (cutoff_date : ℤ) : Except FilingRecord (List FilingRecord) :=
  match filings.find? (fun r => decide (end_of_day cutoff_date < r.acceptance_datetime)) with
  | some r => .error r
  | none =>
    .ok (sort_desc_by_period
      ((period_keys (filings.map (fun r => r.period_of_report))).filterMap
        (fun p => pick_best allow_amendments
          (filings.filter (fun r => decide (r.period_of_report = p))))))

/-- The per-period candidate pool the selector chooses from: the
period's group, restricted to amendments when allowed and present. -/
def group_candidates (allow_amendments : Bool) (filings : List FilingRecord)
    (p : ℤ) : List FilingRecord :=
  restricted_candidates allow_amendments
    (filings.filter (fun r => decide (r.period_of_report = p)))

theorem foldl_acc_mem (xs : List FilingRecord) : ∀ a : FilingRecord,
    xs.foldl (fun best r => if best.acceptance_datetime < r.acceptance_datetime then r else best) a
      ∈ a :: xs := by
  induction xs with
  | nil => intro a; simp
  | cons x xs ih =>
    intro a
    rw [List.foldl_cons]
    by_cases hx : a.acceptance_datetime < x.acceptance_datetime
    · rw [if_pos hx]
      have := ih x
      simp only [List.mem_cons] at this ⊢
      tauto
    · rw [if_neg hx]
      have := ih a
      simp only [List.mem_cons] at this ⊢
      tauto

theorem foldl_acc_le (xs : List FilingRecord) : ∀ a : FilingRecord, ∀ y ∈ a :: xs,
    y.acceptance_datetime ≤
      (xs.foldl (fun best r => if best.acceptance_datetime < r.acceptance_datetime then r else best) a).acceptance_datetime := by
  induction xs with
  | nil => intro a y hy; simp at hy; subst hy; rfl
  | cons x xs ih =>
    intro a y hy
    rw [List.foldl_cons]
    simp only [List.mem_cons] at hy
    by_cases hx : a.acceptance_datetime < x.acceptance_datetime
    · rw [if_pos hx]
      rcases hy with rfl | rfl | hy
      · exact le_of_lt (lt_of_lt_of_le hx (ih x x (by simp)))
      · exact ih y y (by simp)
      · exact ih x y (by simp [hy])
    · rw [if_neg hx]
      rcases hy with rfl | rfl | hy
      · exact ih y y (by simp)
      · exact le_trans (not_lt.mp hx) (ih a a (by simp))
      · exact ih a y (by simp [hy])

theorem max_by_acceptance_spec (candidates : List FilingRecord) (h : candidates ≠ []) :
    ∃ r, max_by_acceptance candidates = some r ∧ r ∈ candidates ∧
      ∀ c ∈ candidates, c.acceptance_datetime ≤ r.acceptance_datetime := by
  cases candidates with
  | nil => exact absurd rfl h
  | cons c cs =>
    exact ⟨_, rfl, foldl_acc_mem cs c, foldl_acc_le cs c⟩

theorem restricted_candidates_subset (allow_amendments : Bool)
    (candidates : List FilingRecord) :
    restricted_candidates allow_amendments candidates ⊆ candidates := by
  rw [restricted_candidates]
  split
  · exact fun x hx => List.mem_of_mem_filter hx
  · exact fun _ h => h

theorem restricted_candidates_ne_nil (allow_amendments : Bool)
    (candidates : List FilingRecord) (h : candidates ≠ []) :
    restricted_candidates allow_amendments candidates ≠ [] := by
  rw [restricted_candidates]
  split
  · rename_i hcond
    rw [Bool.and_eq_true, Bool.not_eq_true'] at hcond
    obtain ⟨-, h2⟩ := hcond
    rw [List.isEmpty_eq_false_iff_exists_mem] at h2
    obtain ⟨x, hx⟩ := h2
    exact List.ne_nil_of_mem hx
  · exact h

theorem pick_best_spec (allow_amendments : Bool) (candidates : List FilingRecord)
    (h : candidates ≠ []) :
    ∃ r, pick_best allow_amendments candidates = some r ∧
      r ∈ restricted_candidates allow_amendments candidates ∧
      ∀ c ∈ restricted_candidates allow_amendments candidates,
        c.acceptance_datetime ≤ r.acceptance_datetime := by
  exact max_by_acceptance_spec _ (restricted_candidates_ne_nil allow_amendments candidates h)

theorem mem_period_keys (l : List ℤ) (q : ℤ) : q ∈ period_keys l ↔ q ∈ l := by
  induction l using period_keys.induct with
  | case1 => simp [period_keys]
  | case2 p ps ih =>
    rw [period_keys]
    simp only [List.mem_cons, ih, List.mem_filter, decide_eq_true_eq]
    by_cases hq : q = p
    · simp [hq]
    · simp [hq]

theorem nodup_period_keys (l : List ℤ) : (period_keys l).Nodup := by
  induction l using period_keys.induct with
  | case1 => simp [period_keys]
  | case2 p ps ih =>
    rw [period_keys]
    refine List.Nodup.cons ?_ ih
    intro hmem
    rw [mem_period_keys, List.mem_filter] at hmem
    simpa using hmem.2

theorem insert_desc_perm (r : FilingRecord) (l : List FilingRecord) :
    List.Perm (insert_desc r l) (r :: l) := by
  induction l with
  | nil => rfl
  | cons x xs ih =>
    rw [insert_desc]
    split
    · rfl
    · exact (ih.cons x).trans (List.Perm.swap r x xs)

theorem sort_desc_perm (l : List FilingRecord) :
    List.Perm (sort_desc_by_period l) l := by
  induction l with
  | nil => rfl
  | cons x xs ih =>
    rw [sort_desc_by_period]
    exact (insert_desc_perm x (sort_desc_by_period xs)).trans (ih.cons x)

theorem insert_desc_sorted (r : FilingRecord) (l : List FilingRecord)
    (h : List.Pairwise (fun a b => b.period_of_report ≤ a.period_of_report) l) :
    List.Pairwise (fun a b => b.period_of_report ≤ a.period_of_report) (insert_desc r l) := by
  induction l with
  | nil => simp [insert_desc]
  | cons x xs ih =>
    rw [insert_desc]
    rw [List.pairwise_cons] at h
    split
    · rename_i hlt
      rw [List.pairwise_cons]
      constructor
      · intro y hy
        simp only [List.mem_cons] at hy
        rcases hy with rfl | hy
        · exact le_of_lt hlt
        · exact le_trans (h.1 y hy) (le_of_lt hlt)
      · exact List.pairwise_cons.mpr h
    · rename_i hge
      rw [List.pairwise_cons]
      constructor
      · intro y hy
        have := (insert_desc_perm r xs).mem_iff.mp hy
        simp only [List.mem_cons] at this
        rcases this with rfl | hy2
        · exact not_lt.mp hge
        · exact h.1 y hy2
      · exact ih h.2

theorem sort_desc_sorted (l : List FilingRecord) :
    List.Pairwise (fun a b => b.period_of_report ≤ a.period_of_report)
      (sort_desc_by_period l) := by
  induction l with
  | nil => simp [sort_desc_by_period]
  | cons x xs ih =>
    rw [sort_desc_by_period]
    exact insert_desc_sorted x _ ih

theorem selected_map_period (allow_amendments : Bool) (filings : List FilingRecord)
    (keys : List ℤ)
    (hkeys : ∀ p ∈ keys, p ∈ filings.map (fun r => r.period_of_report)) :
    (keys.filterMap (fun p => pick_best allow_amendments
        (filings.filter (fun r => decide (r.period_of_report = p))))).map
      (fun r => r.period_of_report) = keys := by
  induction keys with
  | nil => simp
  | cons p ps ih =>
    have hp := hkeys p (by simp)
    rw [List.mem_map] at hp
    obtain ⟨r0, hr0, hr0p⟩ := hp
    have hgrp : filings.filter (fun r => decide (r.period_of_report = p)) ≠ [] := by
      refine List.ne_nil_of_mem (a := r0) ?_
      rw [List.mem_filter]
      exact ⟨hr0, by simp [hr0p]⟩
    obtain ⟨r, hr, hrmem, -⟩ := pick_best_spec allow_amendments _ hgrp
    have hrp : r.period_of_report = p := by
      have := restricted_candidates_subset allow_amendments _ hrmem
      rw [List.mem_filter] at this
      simpa using this.2
    rw [List.filterMap_cons, hr, List.map_cons, hrp,
      ih (fun q hq => hkeys q (by simp [hq]))]

/-- Claim C4: on PIT-clean input, `FilingSelector.select` succeeds and
emits exactly one record per distinct `period_of_report` (the emitted
period multiset is duplicate-free and covers exactly the input periods),
sorted descending by period; and each emitted record belongs to its
period's candidate pool (restricted to amendments when allowed and any
`/A` form is present) and carries the latest `acceptance_datetime` of
that pool. -/
theorem c4_selector_one_per_period_sorted (allow_amendments : Bool)
    (filings : List FilingRecord) (cutoff_date : ℤ)
    (hpit : ∀ r ∈ filings, r.acceptance_datetime ≤ end_of_day cutoff_date) :
    ∃ out, selector_select allow_amendments filings cutoff_date = .ok out ∧
      (out.map (fun r => r.period_of_report)).Nodup ∧
      List.Pairwise (fun a b => b.period_of_report ≤ a.period_of_report) out ∧
      (∀ p, p ∈ out.map (fun r => r.period_of_report) ↔
        p ∈ filings.map (fun r => r.period_of_report)) ∧
      (∀ r ∈ out, r ∈ group_candidates allow_amendments filings r.period_of_report ∧
        ∀ c ∈ group_candidates allow_amendments filings r.period_of_report,
          c.acceptance_datetime ≤ r.acceptance_datetime) := by
  have hfind : filings.find?
      (fun r => decide (end_of_day cutoff_date < r.acceptance_datetime)) = none := by
    rw [List.find?_eq_none]
    intro r hr
    simpa using hpit r hr
  have hkeys : ∀ p ∈ period_keys (filings.map (fun r => r.period_of_report)),
      p ∈ filings.map (fun r => r.period_of_report) := by
    intro p hp
    exact (mem_period_keys _ _).mp hp
  refine ⟨_, by rw [selector_select, hfind], ?_, sort_desc_sorted _, ?_, ?_⟩
  · have hperm := (sort_desc_perm
      ((period_keys (filings.map (fun r => r.period_of_report))).filterMap
        (fun p => pick_best allow_amendments
          (filings.filter (fun r => decide (r.period_of_report = p)))))).map
      (fun r => r.period_of_report)
    refine hperm.nodup_iff.mpr ?_
    rw [selected_map_period allow_amendments filings _ hkeys]
    exact nodup_period_keys _
  · intro p
    have hperm := (sort_desc_perm
      ((period_keys (filings.map (fun r => r.period_of_report))).filterMap
        (fun q => pick_best allow_amendments
          (filings.filter (fun r => decide (r.period_of_report = q)))))).map
      (fun r => r.period_of_report)
    rw [hperm.mem_iff, selected_map_period allow_amendments filings _ hkeys,
      mem_period_keys]
  · intro r hr
    have hrsel := (sort_desc_perm _).mem_iff.mp hr
    rw [List.mem_filterMap] at hrsel
    obtain ⟨p, hp, hpick⟩ := hrsel
    have hp2 := (mem_period_keys _ _).mp hp
    rw [List.mem_map] at hp2
    obtain ⟨r0, hr0, hr0p⟩ := hp2
    have hgrp : filings.filter (fun x => decide (x.period_of_report = p)) ≠ [] := by
      refine List.ne_nil_of_mem (a := r0) ?_
      rw [List.mem_filter]
      exact ⟨hr0, by simp [hr0p]⟩
    obtain ⟨r2, hr2, hr2mem, hr2max⟩ := pick_best_spec allow_amendments _ hgrp
    rw [hpick] at hr2
    cases hr2
    have hrp : r.period_of_report = p := by
      have := restricted_candidates_subset allow_amendments _ hr2mem
      rw [List.mem_filter] at this
      simpa using this.2
    rw [group_candidates, hrp]
    exact ⟨hr2mem, hr2max⟩

/-- A concrete original 10-K for the C4 witness (period 17135,
accepted early on day 17160). -/
def c4_rec_orig : FilingRecord :=
  { cik := "0000320193", accession := "0000320193-16-000001", form_type := "10-K",
    filing_date := 17160, acceptance_datetime := start_of_day 17160 + 3600,
    period_of_report := 17135, ticker := "AAPL" }

/-- A concrete amendment 10-K/A for the C4 witness (same period,
accepted later on day 17162). -/
def c4_rec_amend : FilingRecord :=
  { cik := "0000320193", accession := "0000320193-16-000002", form_type := "10-K/A",
    filing_date := 17162, acceptance_datetime := start_of_day 17162 + 3600,
    period_of_report := 17135, ticker := "AAPL" }

/-- Witness for C4 at a concrete PIT-clean input with one original and
one amendment for the same period. -/
theorem c4_selector_one_per_period_sorted_witness :
    ∃ out, selector_select true [c4_rec_orig, c4_rec_amend] 17166 = .ok out ∧
      (out.map (fun r => r.period_of_report)).Nodup ∧
      List.Pairwise (fun a b => b.period_of_report ≤ a.period_of_report) out ∧
      (∀ p, p ∈ out.map (fun r => r.period_of_report) ↔
        p ∈ [c4_rec_orig, c4_rec_amend].map (fun r => r.period_of_report)) ∧
      (∀ r ∈ out, r ∈ group_candidates true [c4_rec_orig, c4_rec_amend] r.period_of_report ∧
        ∀ c ∈ group_candidates true [c4_rec_orig, c4_rec_amend] r.period_of_report,
          c.acceptance_datetime ≤ r.acceptance_datetime) := by
  refine c4_selector_one_per_period_sorted true [c4_rec_orig, c4_rec_amend] 17166 ?_
  intro r hr
  simp only [List.mem_cons, List.not_mem_nil, or_false] at hr
  rcases hr with rfl | rfl <;>
    norm_num [c4_rec_orig, c4_rec_amend, end_of_day, start_of_day, SECONDS_PER_DAY]

/-- Claim C5: `FilingSelector.select` raises `CutoffViolationError`
exactly when some input record's acceptance datetime lies strictly
after 23:59:59 of the cutoff date; on PIT-clean input it never raises. -/
theorem c5_cutoff_violation (allow_amendments : Bool)
    (filings : List FilingRecord) (cutoff_date : ℤ) :
    ((∃ r ∈ filings, end_of_day cutoff_date < r.acceptance_datetime) →
      ∃ e, selector_select allow_amendments filings cutoff_date = .error e ∧
        end_of_day cutoff_date < e.acceptance_datetime)
    ∧ ((∀ r ∈ filings, r.acceptance_datetime ≤ end_of_day cutoff_date) →
      ∃ out, selector_select allow_amendments filings cutoff_date = .ok out) := by
  constructor
  · rintro ⟨r, hr, hrviol⟩
    have : (filings.find?
        (fun x => decide (end_of_day cutoff_date < x.acceptance_datetime))).isSome := by
      rw [List.find?_isSome]
      exact ⟨r, hr, by simpa using hrviol⟩
    obtain ⟨e, he⟩ := Option.isSome_iff_exists.mp this
    refine ⟨e, ?_, ?_⟩
    · rw [selector_select, he]
    · simpa using List.find?_some he
  · intro hpit
    have hfind : filings.find?
        (fun r => decide (end_of_day cutoff_date < r.acceptance_datetime)) = none := by
      rw [List.find?_eq_none]
      intro r hr
      simpa using hpit r hr
    exact ⟨_, by rw [selector_select, hfind]⟩

/-- A record accepted at 2017-01-01 00:00:01 (day 17167, one second
past midnight), against a cutoff of 2016-12-31 (day 17166). -/
def c5_violating_record : FilingRecord :=
  { cik := "0000320193", accession := "0000320193-17-000001", form_type := "10-K",
    filing_date := 17167, acceptance_datetime := start_of_day 17167 + 1,
    period_of_report := 17100, ticker := "AAPL" }

/-- A record accepted within the 2016-12-31 cutoff. -/
def c5_clean_record : FilingRecord :=
  { cik := "0000320193", accession := "0000320193-16-000001", form_type := "10-K",
    filing_date := 17160, acceptance_datetime := end_of_day 17166,
    period_of_report := 17100, ticker := "AAPL" }

/-- Witness for C5: acceptance 2017-01-01 00:00:01 with cutoff
2016-12-31 raises the violation, and a record accepted at the last
second of the cutoff day does not. -/
theorem c5_cutoff_violation_witness :
    (∃ e, selector_select true [c5_violating_record] 17166 = .error e ∧
      end_of_day 17166 < e.acceptance_datetime)
    ∧ (∃ out, selector_select true [c5_clean_record] 17166 = .ok out) := by
  constructor
  · refine (c5_cutoff_violation true [c5_violating_record] 17166).1 ?_
    refine ⟨c5_violating_record, by simp, ?_⟩
    norm_num [c5_violating_record, end_of_day, start_of_day, SECONDS_PER_DAY]
  · refine (c5_cutoff_violation true [c5_clean_record] 17166).2 ?_
    intro r hr
    simp only [List.mem_singleton] at hr
    subst hr
    norm_num [c5_clean_record]

/-- Embeds `fundamental_engine.constants.BALANCE_SHEET_TOLERANCE` (1%). -/
def BALANCE_SHEET_TOLERANCE : ℚ := 1 / 100

/-- Embeds the per-row value of the `identity_ok` column added by
`check_balance_sheet_identity` in `fundamental_engine.data.validation`,
for a frame that has the three total columns.  Missing cell values are
filled with 0 (`fillna(0)`); rows whose filled assets are 0 get a NaN
relative error, and the pandas comparison `NaN <= tolerance` on a
float64 series yields `False`, so the resulting cell is a boolean and is
never null. -/
def identity_ok_cell (total_assets total_liabilities total_equity : Option ℚ) :
    Option Bool :=
  let liab_plus_equity := total_liabilities.getD 0 + total_equity.getD 0
  let assets := total_assets.getD 0
  some (if 0 < |assets| then
    decide (|assets - liab_plus_equity| / |assets| ≤ BALANCE_SHEET_TOLERANCE)
  else false)

/-- Counterexample to C6: a row with assets = 100, missing liabilities
and equity = 100 gets `identity_ok = true` (liabilities are filled with
0 before the check), not the null the claim requires for rows with a
missing total. -/
theorem c6_identity_null_counterexample :
    identity_ok_cell (some 100) none (some 100) = some true ∧
      identity_ok_cell (some 100) none (some 100) ≠ none := by
  constructor
  · norm_num [identity_ok_cell, BALANCE_SHEET_TOLERANCE]
  · norm_num [identity_ok_cell, BALANCE_SHEET_TOLERANCE]
    exact fun h => Option.noConfusion h

/-- Claim C6 as amended: `identity_ok` is never null at row level.
Missing totals are filled with 0; the flag is true exactly when the
filled assets are nonzero and the relative error of the filled values is
within 1%.  (In particular, for rows with all three totals present and
nonzero assets this is the claimed predicate, and the claim's two
numeric examples hold.) -/
theorem c6_identity_ok_amended (total_assets total_liabilities total_equity : Option ℚ) :
    (∃ b, identity_ok_cell total_assets total_liabilities total_equity = some b ∧
      (b = true ↔ 0 < |total_assets.getD 0| ∧
        |total_assets.getD 0 - (total_liabilities.getD 0 + total_equity.getD 0)| /
          |total_assets.getD 0| ≤ 1 / 100))
    ∧ identity_ok_cell (some 100000000) (some 80000000) (some 10000000) = some false
    ∧ identity_ok_cell (some 100000000) (some 80000000) (some 20000000) = some true := by
  refine ⟨⟨_, rfl, ?_⟩, ?_, ?_⟩
  · by_cases h : 0 < |total_assets.getD 0|
    · simp [h, BALANCE_SHEET_TOLERANCE]
    · simp [h]
  · norm_num [identity_ok_cell, BALANCE_SHEET_TOLERANCE]
  · norm_num [identity_ok_cell, BALANCE_SHEET_TOLERANCE]

/-- Embeds the `net_debt` computation of `_compute_derived` in
`fundamental_engine.snapshot.builder`, at the level of one row of the
joined frame.  The `has_*` flags model column presence (`_col` returns
`None` exactly when the column is absent from the frame); the `Option ℚ`
arguments model the row's cells, with `fillna(0)` as `getD 0`. -/
def net_debt_cell (has_ltd has_stb has_cash : Bool)
    (long_term_debt short_term_debt cash_and_equivalents : Option ℚ) : Option ℚ :=
  if has_ltd && has_stb && has_cash then
    some (long_term_debt.getD 0 + short_term_debt.getD 0 - cash_and_equivalents.getD 0)
  else if has_ltd then some (long_term_debt.getD 0)
  else none

/-- Counterexample to C7: in a frame with all three columns, a row with
both debt cells missing and cash = 100 gets `net_debt = -100` (missing
values are filled with 0 unconditionally), not the null the claim
requires when neither debt component is present in the row. -/
theorem c7_net_debt_null_counterexample :
    net_debt_cell true true true none none (some 100) = some (-100) ∧
      net_debt_cell true true true none none (some 100) ≠ none := by
  constructor
  · norm_num [net_debt_cell]
  · norm_num [net_debt_cell]
    exact fun h => Option.noConfusion h

/-- Claim C7 as amended: `net_debt` is governed by column presence, not
per-row value presence.  With all three columns present every row gets
`fillna0(ltd) + fillna0(stb) - fillna0(cash)` (0-filled even when both
debt cells are missing); with only the long-term-debt column present the
row gets `fillna0(ltd)` and cash is not subtracted; rows are null only
when the long-term-debt column is absent. -/
theorem c7_net_debt_amended (has_ltd has_stb has_cash : Bool)
    (long_term_debt short_term_debt cash_and_equivalents : Option ℚ) :
    (has_ltd = true → has_stb = true → has_cash = true →
      net_debt_cell has_ltd has_stb has_cash
          long_term_debt short_term_debt cash_and_equivalents =
        some (long_term_debt.getD 0 + short_term_debt.getD 0 -
          cash_and_equivalents.getD 0))
    ∧ (has_ltd = true → ¬(has_stb = true ∧ has_cash = true) →
      net_debt_cell has_ltd has_stb has_cash
          long_term_debt short_term_debt cash_and_equivalents =
        some (long_term_debt.getD 0))
    ∧ (has_ltd = false →
      net_debt_cell has_ltd has_stb has_cash
          long_term_debt short_term_debt cash_and_equivalents = none) := by
  refine ⟨?_, ?_, ?_⟩
  · rintro rfl rfl rfl
    rfl
  · rintro rfl hnot
    cases has_stb <;> cases has_cash <;> simp_all [net_debt_cell]
  · rintro rfl
    simp [net_debt_cell]

/-- Witness for C7's amended claim at concrete inputs covering the
three column-presence cases. -/
theorem c7_net_debt_amended_witness :
    net_debt_cell true true true (some 5) (some 3) (some 2) = some 6 ∧
      net_debt_cell true false true (some 5) (some 3) (some 2) = some 5 ∧
      net_debt_cell false true true (some 5) (some 3) (some 2) = none := by
  refine ⟨?_, ?_, ?_⟩
  · have h := (c7_net_debt_amended true true true (some 5) (some 3) (some 2)).1 rfl rfl rfl
    rw [h]
    norm_num
  · have h := (c7_net_debt_amended true false true (some 5) (some 3) (some 2)).2.1 rfl
      (by simp)
    rw [h]
    norm_num
  · exact (c7_net_debt_amended false true true (some 5) (some 3) (some 2)).2.2 rfl

/-- Embeds the accounting-identity fallback of
`XBRLParser.build_balance_rows` in `fundamental_engine.edgar.xbrl.parser`:
`if assets is None and liab is not None and equity is not None: assets =
liab + equity`, and the symmetric `elif` branches for liabilities and
equity; otherwise the three totals are left unchanged. -/
def apply_identity_fallback (total_assets total_liabilities total_equity : Option ℚ) :
    Option ℚ × Option ℚ × Option ℚ :=
  match total_assets, total_liabilities, total_equity with
  | none, some liab, some equity => (some (liab + equity), some liab, some equity)
  | some assets, none, some equity => (some assets, some (assets - equity), some equity)
  | some assets, some liab, none => (some assets, some liab, some (assets - liab))
  | a, l, e => (a, l, e)

/-- Claim C8: when exactly one of the three balance totals is
unresolved, the fallback computes it from the identity (assets =
liabilities + equity and its rearrangements); when two or more are
unresolved (and when none is), nothing is computed. -/
theorem c8_balance_identity_fallback (a l e : ℚ) (x : Option ℚ) :
    apply_identity_fallback none (some l) (some e) = (some (l + e), some l, some e)
    ∧ apply_identity_fallback (some a) none (some e) = (some a, some (a - e), some e)
    ∧ apply_identity_fallback (some a) (some l) none = (some a, some l, some (a - l))
    ∧ apply_identity_fallback (some a) (some l) (some e) = (some a, some l, some e)
    ∧ apply_identity_fallback none none x = (none, none, x)
    ∧ apply_identity_fallback none x none = (none, x, none)
    ∧ apply_identity_fallback x none none = (x, none, none) := by
  refine ⟨rfl, rfl, rfl, rfl, ?_, ?_, ?_⟩
  · cases x <;> rfl
  · cases x <;> rfl
  · cases x <;> rfl

/-- The observable outcome of one HTTP attempt inside the `_fetch`
closures of `EdgarClient.get_json` / `get_raw`: a normal response below
400, a connection error, a timeout, or a response with a given status
code handed to `check_response`. -/
inductive HTTPOutcome where
  | ok
  | connection_error
  | request_timeout
  | status (code : ℕ)
  deriving DecidableEq, Repr

/-- The exception taxonomy visible to the retry decorator:
`_RetryableHTTPError` (carrying the response status),
`requests.HTTPError` from `raise_for_status`, `requests.ConnectionError`
and `requests.Timeout`, and
`fundamental_engine.exceptions.RateLimitError` (imported by
`utils.retry` but constructed nowhere in the source). -/
inductive EngineError where
  | retryable_http (code : ℕ)
  | http_error (code : ℕ)
  | connection_error
  | request_timeout
  | rate_limit
  deriving DecidableEq, Repr

/-- Embeds `fundamental_engine.utils.retry.check_response` as the
exception it raises (`none` = returns normally): 429 and the transient
5xx set are wrapped in `_RetryableHTTPError`; `raise_for_status` turns
any other 4xx/5xx into `requests.HTTPError`. -/
def check_response_exc (code : ℕ) : Option EngineError :=
  if code = 429 then some (.retryable_http code)
  else if code = 500 ∨ code = 502 ∨ code = 503 ∨ code = 504 then
    some (.retryable_http code)
  else if 400 ≤ code ∧ code < 600 then some (.http_error code)
  else none

/-- The exception one attempt raises, if any. -/
def attempt_exc : HTTPOutcome → Option EngineError
  | .ok => none
  | .connection_error => some .connection_error
  | .request_timeout => some .request_timeout
  | .status code => check_response_exc code

/-- Embeds `fundamental_engine.utils.retry._is_retryable`. -/
def is_retryable : EngineError → Bool
  | .retryable_http code =>
    decide (code = 429 ∨ code = 500 ∨ code = 502 ∨ code = 503 ∨ code = 504)
  | .connection_error => true
  | .request_timeout => true
  | .http_error _ => false
  | .rate_limit => false

/-- Embeds the tenacity loop configured by `with_retry`
(`retry_if_exception(_is_retryable)`, `stop_after_attempt(max_attempts)`,
`reraise=True`): run attempt `n`; return on success; re-raise a
non-retryable exception at once; re-raise a retryable exception when
`max_attempts` has been reached, else run the next attempt.  `script`
gives the outcome of each attempt; `fuel` bounds the recursion and is
started at `max_attempts`. -/
def retry_run_from (script : ℕ → HTTPOutcome) (max_attempts : ℕ) :
    ℕ → ℕ → Except EngineError Unit
  | _, 0 => .ok ()
  | n, fuel + 1 =>
    match attempt_exc (script n) with
    | none => .ok ()
    | some e =>
      if is_retryable e && decide (n < max_attempts) then
        retry_run_from script max_attempts (n + 1) fuel
      else .error e

/-- A full decorated call: attempts numbered from 1. -/
def with_retry_run (max_attempts : ℕ) (script : ℕ → HTTPOutcome) :
    Except EngineError Unit :=
  retry_run_from script max_attempts 1 max_attempts

/-- Embeds tenacity's `wait_exponential(multiplier, min, max)` wait
before a retry: `multiplier * 2^k` clamped into `[max(0, min), max]`. -/
def wait_exponential_wait (multiplier min_wait max_wait : ℚ) (k : ℕ) : ℚ :=
  max (max 0 min_wait) (min (multiplier * 2 ^ k) max_wait)

/-- Retry parameters `EdgarClient.get_json` / `get_raw` pass to
`with_retry`: `max_attempts=5`. -/
def EDGAR_MAX_ATTEMPTS : ℕ := 5

/-- `min_wait=2.0` as passed by `EdgarClient` (the `with_retry` default
is 1.0, but both client call sites override it). -/
def EDGAR_MIN_WAIT : ℚ := 2

/-- `max_wait=60.0` as passed by `EdgarClient`. -/
def EDGAR_MAX_WAIT : ℚ := 60

theorem attempt_exc_ne_rate_limit (o : HTTPOutcome) :
    attempt_exc o ≠ some .rate_limit := by
  cases o with
  | ok => simp [attempt_exc]
  | connection_error => simp [attempt_exc]
  | request_timeout => simp [attempt_exc]
  | status code =>
    simp only [attempt_exc, check_response_exc]
    split
    · simp
    · split
      · simp
      · split
        · simp
        · simp

theorem retry_run_never_rate_limit (script : ℕ → HTTPOutcome)
    (max_attempts : ℕ) : ∀ fuel n,
    retry_run_from script max_attempts n fuel ≠ .error .rate_limit := by
  intro fuel
  induction fuel with
  | zero => intro n; simp [retry_run_from]
  | succ fuel ih =>
    intro n
    rw [retry_run_from]
    split
    · simp
    · rename_i e heq
      split
      · exact ih (n + 1)
      · intro hcontra
        rw [Except.error.injEq] at hcontra
        subst hcontra
        exact attempt_exc_ne_rate_limit (script n) heq

/-- Claim C9: each EDGAR HTTP fetch makes up to 5 total attempts and
retries on connection errors, timeouts and statuses 429/500/502/503/504;
any other 4xx (or non-transient 5xx) status is fatal on the spot; the
clamped exponential backoff always waits between 1 s and 60 s.  The code
bug the claim exposes: when retries are exhausted the loop re-raises the
last `_RetryableHTTPError` (shown at the failing input of five straight
429 responses), and `RateLimitError` is never raised by any run, despite
`check_response`'s docstring and the spec. -/
theorem c9_retry_policy (code k : ℕ) :
    (with_retry_run EDGAR_MAX_ATTEMPTS (fun _ => .status code) =
      (if code = 429 ∨ code = 500 ∨ code = 502 ∨ code = 503 ∨ code = 504 then
        .error (.retryable_http code)
      else if 400 ≤ code ∧ code < 600 then .error (.http_error code)
      else .ok ()))
    ∧ with_retry_run EDGAR_MAX_ATTEMPTS
        (fun n => if n ≤ 4 then .status 429 else .ok) = .ok ()
    ∧ with_retry_run EDGAR_MAX_ATTEMPTS
        (fun n => if n = 1 then .status 404 else .ok) = .error (.http_error 404)
    ∧ with_retry_run EDGAR_MAX_ATTEMPTS
        (fun n => if n ≤ 5 then .status 429 else .ok) = .error (.retryable_http 429)
    ∧ (∀ script : ℕ → HTTPOutcome, ∀ max_attempts : ℕ,
        with_retry_run max_attempts script ≠ .error .rate_limit)
    ∧ is_retryable .connection_error = true
    ∧ is_retryable .request_timeout = true
    ∧ is_retryable (.http_error code) = false
    ∧ 1 ≤ wait_exponential_wait 1 EDGAR_MIN_WAIT EDGAR_MAX_WAIT k
    ∧ wait_exponential_wait 1 EDGAR_MIN_WAIT EDGAR_MAX_WAIT k ≤ 60 := by
  refine ⟨?_, by rfl, by rfl, by rfl, ?_, rfl, rfl, rfl, ?_, ?_⟩
  · by_cases hr : code = 429 ∨ code = 500 ∨ code = 502 ∨ code = 503 ∨ code = 504
    · rw [if_pos hr]
      have hce : check_response_exc code = some (.retryable_http code) := by
        rcases hr with rfl | rfl | rfl | rfl | rfl <;> rfl
      have hir : is_retryable (.retryable_http code) = true := by
        simp [is_retryable, hr]
      simp [with_retry_run, retry_run_from, attempt_exc, hce, hir, EDGAR_MAX_ATTEMPTS]
    · rw [if_neg hr]
      push_neg at hr
      obtain ⟨h429, h500, h502, h503, h504⟩ := hr
      by_cases h4 : 400 ≤ code ∧ code < 600
      · rw [if_pos h4]
        have hce : check_response_exc code = some (.http_error code) := by
          simp [check_response_exc, h429, h500, h502, h503, h504, h4]
        simp [with_retry_run, retry_run_from, attempt_exc, hce, is_retryable,
          EDGAR_MAX_ATTEMPTS]
      · rw [if_neg h4]
        have hce : check_response_exc code = none := by
          simp [check_response_exc, h429, h500, h502, h503, h504, h4]
        simp [with_retry_run, retry_run_from, attempt_exc, hce, EDGAR_MAX_ATTEMPTS]
  · intro script max_attempts
    exact retry_run_never_rate_limit script max_attempts max_attempts 1
  · refine le_trans (by norm_num [EDGAR_MIN_WAIT]) (le_trans (le_max_right 0 EDGAR_MIN_WAIT)
      (le_max_left _ _))
  · refine max_le (max_le (by norm_num) (by norm_num [EDGAR_MIN_WAIT])) ?_
    exact le_trans (min_le_right _ _) (by norm_num [EDGAR_MAX_WAIT])

/-- Witness for C9 at concrete inputs: a constant-429 run exhausts the
5 attempts and re-raises the wrapped 429, and a constant-404 run fails
fatally as an HTTP error. -/
theorem c9_retry_policy_witness :
    with_retry_run EDGAR_MAX_ATTEMPTS (fun _ => .status 429) =
      .error (.retryable_http 429) ∧
    with_retry_run EDGAR_MAX_ATTEMPTS (fun _ => .status 404) =
      .error (.http_error 404) := by
  constructor
  · have h := (c9_retry_policy 429 0).1
    norm_num at h
    exact h
  · have h := (c9_retry_policy 404 0).1
    norm_num at h
    exact h

/-- Embeds `fundamental_engine.edgar.xbrl.mapper.TagMapping`. -/
structure TagMapping where
  standard_field : String
  tags : List String
  sign_flip : Bool
  context_type : String
  deriving DecidableEq, Repr

/-- Embeds `fundamental_engine.edgar.xbrl.mapper.TAG_PRIORITY_MAP`
(every entry, in source order). -/
def TAG_PRIORITY_MAP : List TagMapping := [
  ⟨"revenue",
    ["us-gaap:Revenues",
     "us-gaap:RevenueFromContractWithCustomerExcludingAssessedTax",
     "us-gaap:RevenueFromContractWithCustomerIncludingAssessedTax",
     "us-gaap:SalesRevenueNet",
     "us-gaap:SalesRevenueGoodsNet",
     "us-gaap:RevenuesNetOfInterestExpense"],
    false, "duration"⟩,
  ⟨"cost_of_revenue",
    ["us-gaap:CostOfRevenue",
     "us-gaap:CostOfGoodsAndServicesSold",
     "us-gaap:CostOfGoodsSold",
     "us-gaap:CostOfServices"],
    false, "duration"⟩,
  ⟨"gross_profit", ["us-gaap:GrossProfit"], false, "duration"⟩,
  ⟨"operating_expenses",
    ["us-gaap:OperatingExpenses",
     "us-gaap:OperatingCostsAndExpenses"],
    false, "duration"⟩,
  ⟨"ebit",
    ["us-gaap:OperatingIncomeLoss",
     "us-gaap:IncomeLossFromContinuingOperationsBeforeIncomeTaxesExtraordinaryItemsNoncontrollingInterest"],
    false, "duration"⟩,
  ⟨"ebitda",
    ["us-gaap:EarningsBeforeInterestTaxesDepreciationAmortization",
     "us-gaap:EBITDA"],
    false, "duration"⟩,
  ⟨"interest_expense",
    ["us-gaap:InterestExpense",
     "us-gaap:InterestAndDebtExpense",
     "us-gaap:InterestExpenseDebt"],
    false, "duration"⟩,
  ⟨"pretax_income",
    ["us-gaap:IncomeLossFromContinuingOperationsBeforeIncomeTaxesExtraordinaryItemsNoncontrollingInterest",
     "us-gaap:IncomeLossFromContinuingOperationsBeforeIncomeTaxesMinorityInterestAndIncomeLossFromEquityMethodInvestments"],
    false, "duration"⟩,
  ⟨"income_tax_expense", ["us-gaap:IncomeTaxExpenseBenefit"], false, "duration"⟩,
  ⟨"net_income",
    ["us-gaap:NetIncomeLoss",
     "us-gaap:ProfitLoss",
     "us-gaap:NetIncomeLossAvailableToCommonStockholdersBasic"],
    false, "duration"⟩,
  ⟨"eps_basic", ["us-gaap:EarningsPerShareBasic"], false, "duration"⟩,
  ⟨"eps_diluted", ["us-gaap:EarningsPerShareDiluted"], false, "duration"⟩,
  ⟨"shares_basic",
    ["us-gaap:WeightedAverageNumberOfSharesOutstandingBasic"], false, "duration"⟩,
  ⟨"shares_diluted",
    ["us-gaap:WeightedAverageNumberOfDilutedSharesOutstanding"], false, "duration"⟩,
  ⟨"cash_and_equivalents",
    ["us-gaap:CashAndCashEquivalentsAtCarryingValue",
     "us-gaap:Cash",
     "us-gaap:CashCashEquivalentsAndShortTermInvestments"],
    false, "instant"⟩,
  ⟨"short_term_investments",
    ["us-gaap:ShortTermInvestments",
     "us-gaap:MarketableSecuritiesCurrent"],
    false, "instant"⟩,
  ⟨"accounts_receivable",
    ["us-gaap:AccountsReceivableNetCurrent",
     "us-gaap:ReceivablesNetCurrent"],
    false, "instant"⟩,
  ⟨"inventory",
    ["us-gaap:InventoryNet",
     "us-gaap:Inventories"],
    false, "instant"⟩,
  ⟨"current_assets", ["us-gaap:AssetsCurrent"], false, "instant"⟩,
  ⟨"ppe_net",
    ["us-gaap:PropertyPlantAndEquipmentNet",
     "us-gaap:PropertyPlantAndEquipmentAndFinanceLeaseRightOfUseAssetAfterAccumulatedDepreciationAndAmortization"],
    false, "instant"⟩,
  ⟨"goodwill", ["us-gaap:Goodwill"], false, "instant"⟩,
  ⟨"intangibles",
    ["us-gaap:IntangibleAssetsNetExcludingGoodwill",
     "us-gaap:FiniteLivedIntangibleAssetsNet"],
    false, "instant"⟩,
  ⟨"total_assets", ["us-gaap:Assets"], false, "instant"⟩,
  ⟨"accounts_payable",
    ["us-gaap:AccountsPayableCurrent",
     "us-gaap:AccountsPayableAndAccruedLiabilitiesCurrent"],
    false, "instant"⟩,
  ⟨"short_term_debt",
    ["us-gaap:LongTermDebtCurrent",
     "us-gaap:ShortTermBorrowings",
     "us-gaap:DebtCurrent"],
    false, "instant"⟩,
  ⟨"current_liabilities", ["us-gaap:LiabilitiesCurrent"], false, "instant"⟩,
  ⟨"long_term_debt",
    ["us-gaap:LongTermDebtNoncurrent",
     "us-gaap:LongTermDebt",
     "us-gaap:LongTermDebtAndCapitalLeaseObligations"],
    false, "instant"⟩,
  ⟨"total_liabilities", ["us-gaap:Liabilities"], false, "instant"⟩,
  ⟨"common_equity",
    ["us-gaap:StockholdersEquity",
     "us-gaap:CommonStockholdersEquity"],
    false, "instant"⟩,
  ⟨"retained_earnings",
    ["us-gaap:RetainedEarningsAccumulatedDeficit"], false, "instant"⟩,
  ⟨"total_equity",
    ["us-gaap:StockholdersEquity",
     "us-gaap:StockholdersEquityIncludingPortionAttributableToNoncontrollingInterest"],
    false, "instant"⟩,
  ⟨"cfo",
    ["us-gaap:NetCashProvidedByUsedInOperatingActivities",
     "us-gaap:NetCashProvidedByUsedInOperatingActivitiesContinuingOperations"],
    false, "duration"⟩,
  ⟨"capex",
    ["us-gaap:PaymentsToAcquirePropertyPlantAndEquipment",
     "us-gaap:PaymentsForCapitalImprovements",
     "us-gaap:CapitalExpendituresIncurredButNotYetPaid"],
    true, "duration"⟩,
  ⟨"cfi",
    ["us-gaap:NetCashProvidedByUsedInInvestingActivities",
     "us-gaap:NetCashProvidedByUsedInInvestingActivitiesContinuingOperations"],
    false, "duration"⟩,
  ⟨"cff",
    ["us-gaap:NetCashProvidedByUsedInFinancingActivities",
     "us-gaap:NetCashProvidedByUsedInFinancingActivitiesContinuingOperations"],
    false, "duration"⟩,
  ⟨"dividends_paid",
    ["us-gaap:PaymentsOfDividends",
     "us-gaap:PaymentsOfDividendsCommonStock"],
    true, "duration"⟩,
  ⟨"share_repurchases",
    ["us-gaap:PaymentsForRepurchaseOfCommonStock"], true, "duration"⟩,
  ⟨"net_change_in_cash",
    ["us-gaap:CashCashEquivalentsRestrictedCashAndRestrictedCashEquivalentsPeriodIncreaseDecreaseIncludingExchangeRateEffect",
     "us-gaap:CashAndCashEquivalentsPeriodIncreaseDecrease",
     "us-gaap:NetCashProvidedByUsedInContinuingOperations"],
    false, "duration"⟩,
  ⟨"depreciation_amortization",
    ["us-gaap:DepreciationDepletionAndAmortization",
     "us-gaap:DepreciationAndAmortization",
     "us-gaap:Depreciation"],
    false, "duration"⟩,
  ⟨"stock_based_compensation",
    ["us-gaap:ShareBasedCompensation",
     "us-gaap:AllocatedShareBasedCompensationExpense"],
    false, "duration"⟩]

/-- Embeds `FIELD_TO_MAPPING` (`{m.standard_field: m for m in
TAG_PRIORITY_MAP}`).  The standard-field names in the table are
pairwise distinct, so the first match equals the Python dict entry. -/
def FIELD_TO_MAPPING (field : String) : Option TagMapping :=
  TAG_PRIORITY_MAP.find? (fun m => m.standard_field = field)

/-- The field list `build_income_rows` iterates:
`[m.standard_field for m in TAG_PRIORITY_MAP if m.context_type == "duration"]`. -/
def duration_fields : List String :=
  (TAG_PRIORITY_MAP.filter (fun m => m.context_type = "duration")).map
    (fun m => m.standard_field)

/-- Embeds `XBRLParser._resolve_duration_field`: try the mapped tags in
priority order; per tag, period-type-filter the candidates and select
the best fact; the first hit wins, multiplied by -1 on `sign_flip`. -/
def resolve_duration_field (field_name : String) (facts : String → List XBRLFact)
    (period_end cutoff_date : ℤ) (annual : Bool) : Option ℚ :=
  match FIELD_TO_MAPPING field_name with
  | none => none
  | some mapping =>
    match mapping.tags.findSome? (fun full_tag =>
        select_best_fact_for_period
          (filter_facts_by_period_type (facts full_tag) .DURATION annual)
          period_end cutoff_date) with
    | none => none
    | some best => some (best.value * (if mapping.sign_flip then -1 else 1))

/-- `row.get(key)` on the numeric part of the row dict (`none` both for
an absent key and for a key holding `None`). -/
def row_get (row : List (String × Option ℚ)) (key : String) : Option ℚ :=
  match row.find? (fun p => p.1 = key) with
  | some p => p.2
  | none => none

/-- `row[key] = v` on the numeric part of the row dict. -/
def row_set (row : List (String × Option ℚ)) (key : String) (v : Option ℚ) :
    List (String × Option ℚ) :=
  row.map (fun p => if p.1 = key then (key, v) else p)

/-- Embeds the numeric part of `XBRLParser.build_income_rows`: resolve
every duration field of the tag map (the metadata keys ticker/cik/
accession/asof_date/period_end/source are invariant and omitted); apply
the EBITDA fallback `ebit + d&a` when `ebitda` is unresolved; return
`None` when nothing was found. -/
def build_income_row_fields (facts : String → List XBRLFact)
    (period_end cutoff_date : ℤ) (annual : Bool) :
    Option (List (String × Option ℚ)) :=
  let row := duration_fields.map (fun field_name =>
    (field_name, resolve_duration_field field_name facts period_end cutoff_date annual))
  let found_any := row.any (fun p => p.2.isSome)
  if row_get row "ebitda" = none then
    let da_val :=
      match FIELD_TO_MAPPING "depreciation_amortization" with
      | none => none
      | some da_mapping =>
        match da_mapping.tags.findSome? (fun full_tag =>
            select_best_fact_for_period
              (filter_facts_by_period_type (facts full_tag) .DURATION annual)
              period_end cutoff_date) with
        | none => none
        | some best => some (best.value * (if da_mapping.sign_flip then -1 else 1))
    match row_get row "ebit", da_val with
    | some ebit, some da => some (row_set row "ebitda" (some (ebit + da)))
    | _, _ => if found_any then some row else none
  else if found_any then some row else none

/-- A concrete annual CFO fact (365-day duration ending on day 1000,
filed within the cutoff). -/
def c10_cfo_fact : XBRLFact :=
  { tag := "us-gaap:NetCashProvidedByUsedInOperatingActivities", value := 42,
    unit := "USD", start := some 635, «end» := 1000, accession := "a9",
    form := "10-K", frame := none, filed := 900 }

/-- A fact table holding only the CFO fact. -/
def c10_facts (tag : String) : List XBRLFact :=
  if tag = "us-gaap:NetCashProvidedByUsedInOperatingActivities" then [c10_cfo_fact]
  else []

/-- The income row the parser emits for `c10_facts`: every duration
field null except `cfo`. -/
def c10_expected_row : List (String × Option ℚ) :=
  duration_fields.map (fun f => (f, if f = "cfo" then some 42 else none))

/-- Claim C10: `build_income_rows` resolves every duration mapping —
the resolved field list is exactly the 14 income-statement fields
followed by the 9 cashflow fields — and on an input where no
income-statement field resolves but one cashflow duration fact (cfo)
does, an income row is still emitted, with every income-statement
numeric field null. -/
theorem c10_income_row_includes_cashflow_fields :
    duration_fields =
      ["revenue", "cost_of_revenue", "gross_profit", "operating_expenses", "ebit",
       "ebitda", "interest_expense", "pretax_income", "income_tax_expense",
       "net_income", "eps_basic", "eps_diluted", "shares_basic", "shares_diluted",
       "cfo", "capex", "cfi", "cff", "dividends_paid", "share_repurchases",
       "net_change_in_cash", "depreciation_amortization", "stock_based_compensation"]
    ∧ build_income_row_fields c10_facts 1000 1000 true = some c10_expected_row
    ∧ row_get c10_expected_row "cfo" = some 42
    ∧ (["revenue", "cost_of_revenue", "gross_profit", "operating_expenses", "ebit",
        "ebitda", "interest_expense", "pretax_income", "income_tax_expense",
        "net_income", "eps_basic", "eps_diluted", "shares_basic",
        "shares_diluted"].all
      (fun f => (row_get c10_expected_row f).isNone)) = true := by
  have hcfo : resolve_duration_field "cfo" c10_facts 1000 1000 true = some 42 := by
    have h1 : resolve_duration_field "cfo" c10_facts 1000 1000 true =
        some ((42 : ℚ) * (if (false : Bool) then -1 else 1)) := rfl
    rw [h1]
    norm_num
  have hrow : List.map
      (fun field_name => (field_name,
        resolve_duration_field field_name c10_facts 1000 1000 true))
      duration_fields = c10_expected_row := by
    simp only [duration_fields, TAG_PRIORITY_MAP, List.filter, List.map, hcfo]
    rfl
  have hbuild : build_income_row_fields c10_facts 1000 1000 true =
      some c10_expected_row := by
    simp only [build_income_row_fields]
    rw [hrow]
    rfl
  exact ⟨rfl, hbuild, rfl, rfl⟩

end ChronoFund
